import Mathlib

/-!
Verification of the masonry photo gallery core.

This file gives a shallow embedding of the repository's core logic:

* the greedy column distributor `distributePhotosGreedy`
  (src/unnamed/part_002, src/app/components/PhotoGrid.tsx);
* the responsive column-count calculation `calculateColumns`
  (src/app/util/useResponsiveColumns.ts);
* the pagination controller `loadPhotos` of the gallery home route
  (src/app/routes/photos.$id.tsx, second document, lines 122-170);
* the list-backed page fetcher `fetchPhotosFromList` (src/unnamed/part_000);
* the guard of the infinite-scroll hook `useInfiniteScroll`
  (src/app/components/PhotoGrid.tsx).

JavaScript numbers are modelled by `ℚ` (all the arithmetic the theorems
touch is exact in IEEE doubles except division by zero; theorems whose
statements depend on division therefore carry nonzero-dimension
hypotheses, keeping the embedding on the domain where `ℚ` and JS agree).
Asynchronous `loadPhotos` is split at its single `await` into a start
phase and a finish phase, composed by `loadPhotos` with the fetch result
passed explicitly; the dispatched page number is returned as an
`Option Nat` (`none` = no fetch was issued).
-/

/-- `src` record of a Pexels photo (src/unnamed/part_000, lines 18-27). -/
structure PhotoSrc where
  original : String
  large2x : String
  large : String
  medium : String
  small : String
  portrait : String
  landscape : String
  tiny : String
deriving DecidableEq

/-- A Pexels photo record (src/unnamed/part_000, lines 9-30). -/
structure PexelsPhoto where
  id : Int
  width : ℚ
  height : ℚ
  url : String
  photographer : String
  photographer_url : String
  photographer_id : Int
  avg_color : String
  src : PhotoSrc
  liked : Bool
  alt : String
deriving DecidableEq

/-- A Pexels page response (src/unnamed/part_000, lines 32-39). -/
structure PexelsResponse where
  page : Nat
  per_page : Nat
  photos : List PexelsPhoto
  total_results : Nat
  next_page : Option String
  prev_page : Option String
deriving DecidableEq

/-- A photo with the given id and pixel dimensions; the metadata fields,
which none of the algorithms inspect, are filled with defaults. -/
def mkPhoto (id : Int) (width height : ℚ) : PexelsPhoto :=
  { id := id, width := width, height := height, url := "",
    photographer := "", photographer_url := "", photographer_id := 0,
    avg_color := "", src := ⟨"", "", "", "", "", "", "", ""⟩,
    liked := false, alt := "" }

/-- `columnWidth / (photo.width / photo.height) + gap`
(src/unnamed/part_002, line 27). -/
def renderedHeight (columnWidth gap : ℚ) (photo : PexelsPhoto) : ℚ :=
  columnWidth / (photo.width / photo.height) + gap

/-- `Math.min(...heights)` for a nonempty array (for `[]` JS yields
`Infinity`, which the distributor never hits when `columnCount ≥ 1`). -/
def listMin : List ℚ → ℚ
  | [] => 0
  | x :: xs => xs.foldl min x

/-- Largest element of a list of heights, `0` for `[]`. -/
def listMax : List ℚ → ℚ
  | [] => 0
  | x :: xs => xs.foldl max x

/-- `columnHeights.indexOf(Math.min(...columnHeights))`
(src/unnamed/part_002, line 26): index of the first occurrence of the
minimum. -/
def shortestIndex (heights : List ℚ) : Nat :=
  heights.indexOf (listMin heights)

/-- Body of the `photos.forEach` loop (src/unnamed/part_002, lines 25-31):
push the photo onto the currently shortest column and add its rendered
height to that column's accumulator. -/
def distStep (columnWidth gap : ℚ) (st : List ℚ × List (List PexelsPhoto))
    (photo : PexelsPhoto) : List ℚ × List (List PexelsPhoto) :=
  let i := shortestIndex st.1
  let h := renderedHeight columnWidth gap photo
  (st.1.set i (st.1.getD i 0 + h), st.2.set i (st.2.getD i [] ++ [photo]))

/-- `distributePhotosGreedy` (src/unnamed/part_002, lines 16-34), kept
together with its `columnHeights` accumulator: heights start at `gap`
("account for first gap"), columns start empty, and the loop of
`distStep` runs over the photos in input order. -/
def distributeState (photos : List PexelsPhoto) (columnCount : Nat)
    (columnWidth gap : ℚ) : List ℚ × List (List PexelsPhoto) :=
  photos.foldl (distStep columnWidth gap)
    (List.replicate columnCount gap, List.replicate columnCount [])

/-- The columns returned by `distributePhotosGreedy`
(src/unnamed/part_002, line 33). -/
def distributePhotosGreedy (photos : List PexelsPhoto) (columnCount : Nat)
    (columnWidth gap : ℚ) : List (List PexelsPhoto) :=
  (distributeState photos columnCount columnWidth gap).2

/-- Largest single rendered height over the input photos (`0` for an
empty input). -/
def maxRenderedHeight (columnWidth gap : ℚ) (photos : List PexelsPhoto) : ℚ :=
  (photos.map (renderedHeight columnWidth gap)).foldr max 0

/-- `calculateColumns` (src/app/util/useResponsiveColumns.ts, lines 22-33):
`Math.max(1, Math.min(4, Math.floor((containerWidth - 16) / (18 * remSize))))`. -/
def calculateColumns (containerWidth remSize : ℚ) : Int :=
  max 1 (min 4 ⌊(containerWidth - 16) / (18 * remSize)⌋)

/-- State of the gallery home component (src/app/routes/photos.$id.tsx,
lines 123-128): the accumulated photos, the `isLoading` and `error`
render state, the page cursor, the `hasMore` flag and the re-entrancy
guard `loadingRef`. -/
structure PaginationState where
  photos : List PexelsPhoto
  isLoading : Bool
  error : Option String
  page : Nat
  hasMore : Bool
  loadingRef : Bool
deriving DecidableEq

/-- JS truthiness of `response.next_page` (an optional string):
`!!undefined = false`, `!!"" = false`, any other string is truthy. -/
def jsTruthyStr : Option String → Bool
  | none => false
  | some s => !(s == "")

/-- `loadPhotos` up to its `await` (src/app/routes/photos.$id.tsx,
lines 131-140): the in-flight guard, setting the flags, clearing the
error, and choosing the page to request (`reset ? 1 : page`). Returns
the updated state and `some requestedPage`, or `(s, none)` when the
guard made the call a no-op. -/
def loadPhotosStart (reset : Bool) (s : PaginationState) :
    PaginationState × Option Nat :=
  if s.loadingRef then (s, none)
  else ({ s with loadingRef := true, isLoading := true, error := none },
        some (if reset then 1 else s.page))

/-- `loadPhotos` after its `await` (src/app/routes/photos.$id.tsx,
lines 142-155): on success merge or replace the photos, advance the
cursor, update `hasMore` from `!!response.next_page`; on failure record
the error; in both cases (`finally`) clear `isLoading` and the guard. -/
def loadPhotosFinish (reset : Bool) (currentPage : Nat)
    (result : Except String PexelsResponse) (s : PaginationState) :
    PaginationState :=
  match result with
  | .ok response =>
      { s with
        photos := if reset then response.photos else s.photos ++ response.photos,
        page := currentPage + 1,
        hasMore := jsTruthyStr response.next_page,
        isLoading := false, loadingRef := false }
  | .error e =>
      { s with
        error := some ("Error loading photos: " ++ e),
        isLoading := false, loadingRef := false }

/-- One complete `loadPhotos(reset)` call (src/app/routes/photos.$id.tsx,
lines 130-158), with the data source passed as a function from the
requested page to the fetch outcome. The second component records the
page of the dispatched fetch (`none` = no fetch was issued). -/
def loadPhotos (reset : Bool) (fetchPage : Nat → Except String PexelsResponse)
    (s : PaginationState) : PaginationState × Option Nat :=
  match loadPhotosStart reset s with
  | (s₁, none) => (s₁, none)
  | (s₁, some p) => (loadPhotosFinish reset p (fetchPage p) s₁, some p)

/-- `fetchPhotosFromList` (src/unnamed/part_000, lines 69-103): paginate
a stored list by slicing, wrapping back to the start when
`page * perPage` exceeds the list length; `next_page` is always the
string of the next page number. -/
def fetchPhotosFromList (photoSet : List PexelsPhoto) (page perPage : Nat) :
    PexelsResponse :=
  let startIndex := ((page - 1) * perPage) % photoSet.length
  let endIndex := min (startIndex + perPage) photoSet.length
  if endIndex - startIndex < perPage then
    let remainingCount := perPage - (endIndex - startIndex)
    { page := page, per_page := perPage,
      next_page := some (toString (page + 1)), prev_page := none,
      photos := (photoSet.drop startIndex).take (endIndex - startIndex) ++
        photoSet.take remainingCount,
      total_results := photoSet.length }
  else
    { page := page, per_page := perPage,
      next_page := some (toString (page + 1)), prev_page := none,
      photos := (photoSet.drop startIndex).take (endIndex - startIndex),
      total_results := photoSet.length }

/-- `loadPhotos` wired to the list-backed data source with the page size
80 used by the home route (`fetchPhotos(currentPage, 80)`), which in dev
mode resolves to `fetchPhotosFromList`. -/
def loadNextFromList (photoSet : List PexelsPhoto) (reset : Bool)
    (s : PaginationState) : PaginationState :=
  (loadPhotos reset (fun p => Except.ok (fetchPhotosFromList photoSet p 80)) s).1

/-- The home component's initial state (src/app/routes/photos.$id.tsx,
lines 123-128): no photos, not loading, no error, page 1, `hasMore`
true, guard clear. -/
def initialState : PaginationState :=
  { photos := [], isLoading := false, error := none, page := 1,
    hasMore := true, loadingRef := false }

/-- The state after `k` successive successful `loadNext()` calls backed
by the stored list, starting from the initial state. -/
def iterLoadNext (photoSet : List PexelsPhoto) : Nat → PaginationState
  | 0 => initialState
  | k + 1 => loadNextFromList photoSet false (iterLoadNext photoSet k)

/-- Guard of the `useInfiniteScroll` effect
(src/app/components/PhotoGrid.tsx, line 75): the observer is only
created when a callback is supplied and `hasMore` holds; otherwise the
effect returns at once and nothing ever fires. -/
def useInfiniteScrollActive (hasCallback hasMore : Bool) : Bool :=
  hasCallback && hasMore

/-- The sentinel element is only rendered when `hasMore`
(src/app/components/PhotoGrid.tsx, line 207). -/
def sentinelRendered (hasMore : Bool) : Bool :=
  hasMore

/-- A concrete one-photo page response, used by concrete instantiations. -/
def sampleResponse : PexelsResponse :=
  { page := 1, per_page := 80, photos := [mkPhoto 1 1 1],
    total_results := 1, next_page := some ("2"), prev_page := none }

/-- A state with an old cursor (page 5) and an already accumulated
photo, used by concrete instantiations. -/
def staleState : PaginationState :=
  { photos := [mkPhoto 9 1 1], isLoading := false, error := none,
    page := 5, hasMore := true, loadingRef := false }

/-- A state in which the data source has reported that no further page
exists (`hasMore = false`) and no load is in flight, with the cursor at
page 4, used by concrete instantiations. -/
def exhaustedState : PaginationState :=
  { photos := [], isLoading := false, error := none, page := 4,
    hasMore := false, loadingRef := false }

/-! ### Helper lemmas about `listMin`, `listMax`, `List.set` and `List.getD` -/

theorem foldl_min_mem (xs : List ℚ) (a : ℚ) :
    xs.foldl min a = a ∨ xs.foldl min a ∈ xs := by
  induction xs generalizing a with
  | nil => exact Or.inl rfl
  | cons y ys ih =>
    rcases ih (min a y) with h | h
    · rcases min_choice a y with hc | hc
      · exact Or.inl (by rw [List.foldl_cons, h, hc])
      · exact Or.inr (by rw [List.foldl_cons, h, hc]; exact List.mem_cons_self y ys)
    · exact Or.inr (List.mem_cons_of_mem y h)

theorem foldl_min_le (xs : List ℚ) (a : ℚ) :
    xs.foldl min a ≤ a ∧ ∀ x ∈ xs, xs.foldl min a ≤ x := by
  induction xs generalizing a with
  | nil => exact ⟨le_refl a, by simp⟩
  | cons y ys ih =>
    have h := ih (min a y)
    refine ⟨le_trans h.1 (min_le_left a y), ?_⟩
    intro x hx
    rcases List.mem_cons.1 hx with rfl | hx
    · exact le_trans h.1 (min_le_right a x)
    · exact h.2 x hx

theorem listMin_mem (l : List ℚ) (h : l ≠ []) : listMin l ∈ l := by
  match l with
  | x :: xs =>
    show xs.foldl min x ∈ x :: xs
    rcases foldl_min_mem xs x with he | he
    · rw [he]; exact List.mem_cons_self x xs
    · exact List.mem_cons_of_mem x he

theorem listMin_le (l : List ℚ) (x : ℚ) (hx : x ∈ l) : listMin l ≤ x := by
  match l with
  | y :: ys =>
    rcases List.mem_cons.1 hx with rfl | hx
    · exact (foldl_min_le ys x).1
    · exact (foldl_min_le ys y).2 x hx

theorem foldl_max_mem (xs : List ℚ) (a : ℚ) :
    xs.foldl max a = a ∨ xs.foldl max a ∈ xs := by
  induction xs generalizing a with
  | nil => exact Or.inl rfl
  | cons y ys ih =>
    rcases ih (max a y) with h | h
    · rcases max_choice a y with hc | hc
      · exact Or.inl (by rw [List.foldl_cons, h, hc])
      · exact Or.inr (by rw [List.foldl_cons, h, hc]; exact List.mem_cons_self y ys)
    · exact Or.inr (List.mem_cons_of_mem y h)

theorem le_foldl_max (xs : List ℚ) (a : ℚ) :
    a ≤ xs.foldl max a ∧ ∀ x ∈ xs, x ≤ xs.foldl max a := by
  induction xs generalizing a with
  | nil => exact ⟨le_refl a, by simp⟩
  | cons y ys ih =>
    have h := ih (max a y)
    refine ⟨le_trans (le_max_left a y) h.1, ?_⟩
    intro x hx
    rcases List.mem_cons.1 hx with rfl | hx
    · exact le_trans (le_max_right a x) h.1
    · exact h.2 x hx

theorem listMax_mem (l : List ℚ) (h : l ≠ []) : listMax l ∈ l := by
  match l with
  | x :: xs =>
    show xs.foldl max x ∈ x :: xs
    rcases foldl_max_mem xs x with he | he
    · rw [he]; exact List.mem_cons_self x xs
    · exact List.mem_cons_of_mem x he

theorem le_listMax (l : List ℚ) (x : ℚ) (hx : x ∈ l) : x ≤ listMax l := by
  match l with
  | y :: ys =>
    rcases List.mem_cons.1 hx with rfl | hx
    · exact (le_foldl_max ys x).1
    · exact (le_foldl_max ys y).2 x hx

theorem getD_set_self {α : Type} :
    ∀ (l : List α) (i : Nat) (v d : α), i < l.length →
      (l.set i v).getD i d = v
  | [], i, _, _, h => absurd h (by simp)
  | _ :: _, 0, _, _, _ => rfl
  | _ :: xs, i + 1, v, d, h => getD_set_self xs i v d (by simpa using h)

theorem getD_set_ne {α : Type} :
    ∀ (l : List α) (i j : Nat) (v d : α), j ≠ i →
      (l.set i v).getD j d = l.getD j d
  | [], _, _, _, _, _ => rfl
  | _ :: _, 0, 0, _, _, h => absurd rfl h
  | _ :: _, 0, _ + 1, _, _, _ => rfl
  | _ :: _, _ + 1, 0, _, _, _ => rfl
  | _ :: xs, i + 1, j + 1, v, d, h =>
    getD_set_ne xs i j v d (fun e => h (by rw [e]))

theorem shortestIndex_lt (l : List ℚ) (h : l ≠ []) : shortestIndex l < l.length :=
  List.indexOf_lt_length.2 (listMin_mem l h)

theorem getD_shortestIndex (l : List ℚ) (h : l ≠ []) :
    l.getD (shortestIndex l) 0 = listMin l := by
  rw [List.getD_eq_getElem _ _ (shortestIndex_lt l h)]
  have := List.indexOf_get (a := listMin l) (l := l)
    (List.indexOf_lt_length.2 (listMin_mem l h))
  exact this

/-! ### The distributor preserves the photo multiset (C1) -/

theorem foldl_distStep_lengths (cw gap : ℚ) :
    ∀ (ps : List PexelsPhoto) (st : List ℚ × List (List PexelsPhoto)),
      (ps.foldl (distStep cw gap) st).1.length = st.1.length ∧
      (ps.foldl (distStep cw gap) st).2.length = st.2.length
  | [], _ => ⟨rfl, rfl⟩
  | p :: rest, st => by
    have ih := foldl_distStep_lengths cw gap rest (distStep cw gap st p)
    refine ⟨?_, ?_⟩
    · rw [List.foldl_cons, ih.1]; simp [distStep]
    · rw [List.foldl_cons, ih.2]; simp [distStep]

theorem flatten_set_append {α : Type} :
    ∀ (l : List (List α)) (i : Nat) (p : α), i < l.length →
      (l.set i (l.getD i [] ++ [p])).flatten.Perm (l.flatten ++ [p])
  | [], i, _, h => absurd h (by simp)
  | c :: cs, 0, p, _ => by
    simp only [List.getD, List.set, List.flatten_cons, List.getD_cons_zero,
      List.append_assoc]
    exact List.Perm.append_left c List.perm_append_comm
  | c :: cs, i + 1, p, h => by
    simp only [List.set, List.flatten_cons, List.getD_cons_succ,
      List.append_assoc]
    exact List.Perm.append_left c (flatten_set_append cs i p (by simpa using h))

theorem foldl_distStep_flatten_perm (cw gap : ℚ) :
    ∀ (ps : List PexelsPhoto) (st : List ℚ × List (List PexelsPhoto)),
      st.1 ≠ [] → st.1.length = st.2.length →
      ((ps.foldl (distStep cw gap) st).2).flatten.Perm (st.2.flatten ++ ps)
  | [], st, _, _ => by simp
  | p :: rest, st, hne, hlen => by
    have hlt : shortestIndex st.1 < st.2.length := hlen ▸ shortestIndex_lt st.1 hne
    have hstep : (distStep cw gap st p).2.flatten.Perm (st.2.flatten ++ [p]) :=
      flatten_set_append st.2 (shortestIndex st.1) p hlt
    have hne' : (distStep cw gap st p).1 ≠ [] := by
      have : (distStep cw gap st p).1.length = st.1.length := by simp [distStep]
      intro hnil
      exact hne (List.eq_nil_of_length_eq_zero (by rw [← this, hnil]; rfl))
    have hlen' : (distStep cw gap st p).1.length = (distStep cw gap st p).2.length := by
      simpa [distStep] using hlen
    have ih := foldl_distStep_flatten_perm cw gap rest (distStep cw gap st p) hne' hlen'
    rw [List.foldl_cons]
    refine ih.trans ?_
    refine (hstep.append_right rest).trans ?_
    simp [List.append_assoc]

theorem replicate_flatten_nil {α : Type} :
    ∀ (n : Nat), (List.replicate n ([] : List α)).flatten = []
  | 0 => rfl
  | n + 1 => by
    rw [List.replicate_succ, List.flatten_cons, List.nil_append]
    exact replicate_flatten_nil n

/-- C1: for every photo collection (of positive-dimension photos, per the
data-model invariant) and every column count `N ≥ 1`,
`distributePhotosGreedy` returns `N` columns that partition the input
exactly: the concatenation of the columns is a permutation of the input
(no photo lost or duplicated), the column lengths sum to the input
length, and the empty collection yields `N` empty columns. -/
theorem distributePhotosGreedy_partition (photos : List PexelsPhoto) (N : Nat)
    (cw gap : ℚ) (hN : 1 ≤ N)
    (hpos : ∀ p ∈ photos, 0 < p.width ∧ 0 < p.height) :
    (distributePhotosGreedy photos N cw gap).length = N ∧
    (distributePhotosGreedy photos N cw gap).flatten.Perm photos ∧
    ((distributePhotosGreedy photos N cw gap).map List.length).sum = photos.length ∧
    (photos = [] → distributePhotosGreedy photos N cw gap = List.replicate N []) := by
  have hne : (List.replicate N (gap : ℚ)) ≠ [] := by
    intro h
    have := congrArg List.length h
    simp at this
    omega
  have hlen : (List.replicate N (gap : ℚ)).length =
      (List.replicate N ([] : List PexelsPhoto)).length := by simp
  have hperm : (distributePhotosGreedy photos N cw gap).flatten.Perm photos := by
    have := foldl_distStep_flatten_perm cw gap photos
      (List.replicate N gap, List.replicate N []) hne hlen
    simpa [distributePhotosGreedy, distributeState, replicate_flatten_nil] using this
  refine ⟨?_, hperm, ?_, ?_⟩
  · have := (foldl_distStep_lengths cw gap photos
      (List.replicate N gap, List.replicate N [])).2
    simpa [distributePhotosGreedy, distributeState] using this
  · rw [← List.length_flatten]
    exact hperm.length_eq
  · intro h
    subst h
    rfl

/-- Witness for C1 at a concrete input. -/
theorem distributePhotosGreedy_partition_witness :
    (1 ≤ 2 ∧ ∀ p ∈ [mkPhoto 1 2 3, mkPhoto 2 3 2], 0 < p.width ∧ 0 < p.height) ∧
    ((distributePhotosGreedy [mkPhoto 1 2 3, mkPhoto 2 3 2] 2 100 10).length = 2 ∧
     (distributePhotosGreedy [mkPhoto 1 2 3, mkPhoto 2 3 2] 2 100 10).flatten.Perm
       [mkPhoto 1 2 3, mkPhoto 2 3 2] ∧
     ((distributePhotosGreedy [mkPhoto 1 2 3, mkPhoto 2 3 2] 2 100 10).map
       List.length).sum = ([mkPhoto 1 2 3, mkPhoto 2 3 2] : List PexelsPhoto).length ∧
     ([mkPhoto 1 2 3, mkPhoto 2 3 2] = ([] : List PexelsPhoto) →
       distributePhotosGreedy [mkPhoto 1 2 3, mkPhoto 2 3 2] 2 100 10 =
         List.replicate 2 [])) :=
  ⟨⟨by decide, by with_unfolding_all decide⟩,
   distributePhotosGreedy_partition [mkPhoto 1 2 3, mkPhoto 2 3 2] 2 100 10
     (by decide) (by with_unfolding_all decide)⟩

/-! ### The greedy balance bound (C2) -/

theorem zero_le_foldr_max : ∀ (l : List ℚ), 0 ≤ l.foldr max 0
  | [] => le_refl 0
  | x :: xs => le_trans (zero_le_foldr_max xs) (le_max_right x (xs.foldr max 0))

theorem distStep_heights_eq (cw gap : ℚ) (st : List ℚ × List (List PexelsPhoto))
    (p : PexelsPhoto) (hne : st.1 ≠ []) :
    (distStep cw gap st p).1 =
      st.1.set (shortestIndex st.1) (listMin st.1 + renderedHeight cw gap p) := by
  simp only [distStep]
  rw [getD_shortestIndex st.1 hne]

theorem distStep_balance (cw gap : ℚ) (st : List ℚ × List (List PexelsPhoto))
    (p : PexelsPhoto) (B : ℚ) (hne : st.1 ≠ [])
    (hr : 0 ≤ renderedHeight cw gap p)
    (hB : listMax st.1 - listMin st.1 ≤ B) :
    listMax (distStep cw gap st p).1 - listMin (distStep cw gap st p).1 ≤
      max B (renderedHeight cw gap p) := by
  rw [distStep_heights_eq cw gap st p hne]
  set r := renderedHeight cw gap p with hrdef
  set l' := st.1.set (shortestIndex st.1) (listMin st.1 + r) with hl'
  have hne' : l' ≠ [] := by
    intro h
    have := congrArg List.length h
    rw [hl', List.length_set] at this
    exact hne (List.eq_nil_of_length_eq_zero this)
  have hmemlb : ∀ x ∈ l', listMin st.1 ≤ x := by
    intro x hx
    rcases List.mem_or_eq_of_mem_set hx with hx | rfl
    · exact listMin_le st.1 x hx
    · exact le_add_of_nonneg_right hr
  have hmemub : ∀ x ∈ l', x ≤ max (listMax st.1) (listMin st.1 + r) := by
    intro x hx
    rcases List.mem_or_eq_of_mem_set hx with hx | rfl
    · exact le_trans (le_listMax st.1 x hx) (le_max_left _ _)
    · exact le_max_right _ _
  have h1 : listMax l' ≤ max (listMax st.1) (listMin st.1 + r) :=
    hmemub (listMax l') (listMax_mem l' hne')
  have h2 : listMin st.1 ≤ listMin l' :=
    hmemlb (listMin l') (listMin_mem l' hne')
  rcases le_total (listMin st.1 + r) (listMax st.1) with hc | hc
  · rw [max_eq_left hc] at h1
    have hBr := le_max_left B r
    linarith
  · rw [max_eq_right hc] at h1
    have hBr := le_max_right B r
    linarith

theorem foldl_distStep_balance (cw gap : ℚ) :
    ∀ (ps : List PexelsPhoto) (st : List ℚ × List (List PexelsPhoto)) (B : ℚ),
      st.1 ≠ [] → (∀ p ∈ ps, 0 ≤ renderedHeight cw gap p) →
      listMax st.1 - listMin st.1 ≤ B →
      listMax (ps.foldl (distStep cw gap) st).1 -
        listMin (ps.foldl (distStep cw gap) st).1 ≤
        max B (maxRenderedHeight cw gap ps)
  | [], st, B, _, _, hB => by
    simp only [List.foldl_nil, maxRenderedHeight, List.map_nil, List.foldr_nil]
    exact le_trans hB (le_max_left B 0)
  | p :: rest, st, B, hne, hr, hB => by
    have hstep := distStep_balance cw gap st p B hne
      (hr p (List.mem_cons_self p rest)) hB
    have hne' : (distStep cw gap st p).1 ≠ [] := by
      intro h
      have := congrArg List.length h
      simp [distStep] at this
      exact hne this
    have ih := foldl_distStep_balance cw gap rest (distStep cw gap st p)
      (max B (renderedHeight cw gap p)) hne'
      (fun q hq => hr q (List.mem_cons_of_mem p hq)) hstep
    rw [List.foldl_cons]
    refine le_trans ih ?_
    have hmr : maxRenderedHeight cw gap (p :: rest) =
        max (renderedHeight cw gap p) (maxRenderedHeight cw gap rest) := rfl
    rw [hmr, ← max_assoc]

/-- C2: under the claim's hypotheses (every photo has strictly positive
width and height, `N ≥ 1`, positive column width and gap), the final
accumulated column heights of the greedy distributor differ by at most
the largest single rendered height
`columnWidth / (photoWidth / photoHeight) + gap` over the input. -/
theorem distributePhotosGreedy_balance (photos : List PexelsPhoto) (N : Nat)
    (cw gap : ℚ) (hN : 1 ≤ N) (hcw : 0 < cw) (hgap : 0 < gap)
    (hpos : ∀ p ∈ photos, 0 < p.width ∧ 0 < p.height) :
    listMax (distributeState photos N cw gap).1 -
      listMin (distributeState photos N cw gap).1 ≤
      maxRenderedHeight cw gap photos := by
  have hne : (List.replicate N (gap : ℚ)) ≠ [] := by
    intro h
    have := congrArg List.length h
    simp at this
    omega
  have hr : ∀ p ∈ photos, 0 ≤ renderedHeight cw gap p := by
    intro p hp
    have hw := (hpos p hp).1
    have hh := (hpos p hp).2
    have h1 : 0 < p.width / p.height := div_pos hw hh
    have h2 : 0 < cw / (p.width / p.height) := div_pos hcw h1
    unfold renderedHeight
    linarith
  have h0 : listMax (List.replicate N (gap : ℚ)) -
      listMin (List.replicate N (gap : ℚ)) ≤ 0 := by
    have h1 : listMax (List.replicate N (gap : ℚ)) = gap :=
      List.eq_of_mem_replicate (listMax_mem _ hne)
    have h2 : listMin (List.replicate N (gap : ℚ)) = gap :=
      List.eq_of_mem_replicate (listMin_mem _ hne)
    rw [h1, h2]
    simp
  have hmain := foldl_distStep_balance cw gap photos
    (List.replicate N gap, List.replicate N []) 0 hne hr h0
  have hnn : 0 ≤ maxRenderedHeight cw gap photos := zero_le_foldr_max _
  rw [max_eq_right hnn] at hmain
  exact hmain

/-- Witness for C2 at a concrete input. -/
theorem distributePhotosGreedy_balance_witness :
    (1 ≤ 2 ∧ 0 < (100 : ℚ) ∧ 0 < (10 : ℚ) ∧
     ∀ p ∈ [mkPhoto 1 2 1, mkPhoto 2 1 2], 0 < p.width ∧ 0 < p.height) ∧
    listMax (distributeState [mkPhoto 1 2 1, mkPhoto 2 1 2] 2 100 10).1 -
      listMin (distributeState [mkPhoto 1 2 1, mkPhoto 2 1 2] 2 100 10).1 ≤
      maxRenderedHeight 100 10 [mkPhoto 1 2 1, mkPhoto 2 1 2] :=
  ⟨⟨by decide, by with_unfolding_all decide, by with_unfolding_all decide,
     by with_unfolding_all decide⟩,
   distributePhotosGreedy_balance [mkPhoto 1 2 1, mkPhoto 2 1 2] 2 100 10
     (by decide) (by with_unfolding_all decide) (by with_unfolding_all decide)
     (by with_unfolding_all decide)⟩

/-! ### The accumulated heights are the raw, unclamped sums (C8) -/

theorem getD_replicate {α : Type} :
    ∀ (n j : Nat) (a d : α), j < n → (List.replicate n a).getD j d = a
  | 0, j, _, _, h => absurd h (Nat.not_lt_zero j)
  | _ + 1, 0, _, _, _ => rfl
  | n + 1, j + 1, a, d, h => getD_replicate n j a d (Nat.lt_of_succ_lt_succ h)

theorem distStep_heightsInv (cw gap : ℚ) (st : List ℚ × List (List PexelsPhoto))
    (p : PexelsPhoto) (hlen : st.1.length = st.2.length)
    (hinv : ∀ j, j < st.1.length →
      st.1.getD j 0 = gap + ((st.2.getD j []).map (renderedHeight cw gap)).sum) :
    ∀ j, j < (distStep cw gap st p).1.length →
      (distStep cw gap st p).1.getD j 0 =
        gap + (((distStep cw gap st p).2.getD j []).map (renderedHeight cw gap)).sum := by
  intro j hj
  have hlen1 : (distStep cw gap st p).1.length = st.1.length := by simp [distStep]
  rw [hlen1] at hj
  have hne : st.1 ≠ [] := by
    intro h
    rw [h] at hj
    simp at hj
  have hi : shortestIndex st.1 < st.1.length := shortestIndex_lt st.1 hne
  by_cases hji : j = shortestIndex st.1
  · have hinvj := hinv j hj
    subst hji
    simp only [distStep]
    rw [getD_set_self st.1 _ _ _ hj, getD_set_self st.2 _ _ _ (hlen ▸ hj),
      List.map_append, List.sum_append, hinvj]
    simp [renderedHeight]
    ring
  · simp only [distStep]
    rw [getD_set_ne st.1 _ _ _ _ hji, getD_set_ne st.2 _ _ _ _ hji]
    exact hinv j hj

theorem foldl_distStep_heightsInv (cw gap : ℚ) :
    ∀ (ps : List PexelsPhoto) (st : List ℚ × List (List PexelsPhoto)),
      st.1.length = st.2.length →
      (∀ j, j < st.1.length →
        st.1.getD j 0 = gap + ((st.2.getD j []).map (renderedHeight cw gap)).sum) →
      ∀ j, j < (ps.foldl (distStep cw gap) st).1.length →
        (ps.foldl (distStep cw gap) st).1.getD j 0 =
          gap + (((ps.foldl (distStep cw gap) st).2.getD j []).map
            (renderedHeight cw gap)).sum
  | [], _, _, hinv => hinv
  | p :: rest, st, hlen, hinv => by
    rw [List.foldl_cons]
    exact foldl_distStep_heightsInv cw gap rest (distStep cw gap st p)
      (by simpa [distStep] using hlen) (distStep_heightsInv cw gap st p hlen hinv)

/-- C8, amended: the distributor applies no clamping. Each column's final
accumulated height equals the initial `gap` plus the raw sum of
`columnWidth / (photoWidth / photoHeight) + gap` over the photos assigned
to it, exactly as computed — for degenerate inputs this value can be zero
or negative, so no minimum positive value is ever enforced. (Hypotheses:
nonzero photo dimensions keep the `ℚ` embedding on the domain where JS
floating-point division is exact and finite.) -/
theorem distribute_heights_unclamped (photos : List PexelsPhoto) (N : Nat)
    (cw gap : ℚ) (j : Nat) (hj : j < N)
    (_hdim : ∀ p ∈ photos, p.width ≠ 0 ∧ p.height ≠ 0) :
    (distributeState photos N cw gap).1.getD j 0 =
      gap + (((distributePhotosGreedy photos N cw gap).getD j []).map
        (renderedHeight cw gap)).sum := by
  have hlen0 : (List.replicate N (gap : ℚ)).length =
      (List.replicate N ([] : List PexelsPhoto)).length := by simp
  have hinv0 : ∀ i, i < (List.replicate N (gap : ℚ)).length →
      (List.replicate N (gap : ℚ)).getD i 0 =
        gap + (((List.replicate N ([] : List PexelsPhoto)).getD i []).map
          (renderedHeight cw gap)).sum := by
    intro i hi
    rw [List.length_replicate] at hi
    rw [getD_replicate N i _ _ hi, getD_replicate N i _ _ hi]
    simp
  have hmain := foldl_distStep_heightsInv cw gap photos
    (List.replicate N gap, List.replicate N []) hlen0 hinv0 j
  have hlenfin : (photos.foldl (distStep cw gap)
      (List.replicate N gap, List.replicate N [])).1.length = N := by
    have := (foldl_distStep_lengths cw gap photos
      (List.replicate N gap, List.replicate N [])).1
    simpa using this
  exact hmain (by rw [hlenfin]; exact hj)

/-- C8 counterexample: with one 1×1 photo, one column, column width −100
and gap 0 (all arithmetic exact in JS doubles), the accumulated column
height is −100 — the claimed clamping to a minimum positive value does
not happen. -/
theorem distribute_no_clamp_cex :
    (distributeState [mkPhoto 1 1 1] 1 (-100) 0).1.getD 0 0 = -100 ∧
    ¬ (0 < (distributeState [mkPhoto 1 1 1] 1 (-100) 0).1.getD 0 0) := by
  with_unfolding_all decide

/-- Witness for the amended C8 at a concrete input. -/
theorem distribute_heights_unclamped_witness :
    ((0 : Nat) < 2 ∧ ∀ p ∈ [mkPhoto 1 1 1], p.width ≠ 0 ∧ p.height ≠ 0) ∧
    (distributeState [mkPhoto 1 1 1] 2 100 10).1.getD 0 0 =
      10 + (((distributePhotosGreedy [mkPhoto 1 1 1] 2 100 10).getD 0 []).map
        (renderedHeight 100 10)).sum :=
  ⟨⟨by decide, by with_unfolding_all decide⟩,
   distribute_heights_unclamped [mkPhoto 1 1 1] 2 100 10 0 (by decide)
     (by with_unfolding_all decide)⟩

/-! ### The five-equal-photos scenario (C10) -/

/-- C10: five photos of aspect ratio 1:1 distributed into 2 columns at
column width 100 and gap 10 land as photos 1, 3, 5 in column 0 and
photos 2, 4 in column 1 — ties in accumulated height are broken by the
lowest column index. -/
theorem distribute_five_square_photos :
    distributePhotosGreedy
      [mkPhoto 1 1 1, mkPhoto 2 1 1, mkPhoto 3 1 1, mkPhoto 4 1 1, mkPhoto 5 1 1]
      2 100 10 =
    [[mkPhoto 1 1 1, mkPhoto 3 1 1, mkPhoto 5 1 1],
     [mkPhoto 2 1 1, mkPhoto 4 1 1]] := by
  with_unfolding_all decide

/-! ### The column count resolver (C9) -/

/-- C9: for a positive rem size, `calculateColumns` is monotonic
non-decreasing in the container width, always lands in `[1, 4]`, and
returns exactly 1 for zero or negative widths and for widths too small to
fit one 18-rem column. -/
theorem calculateColumns_spec (w w' r : ℚ) (hr : 0 < r) :
    (w ≤ w' → calculateColumns w r ≤ calculateColumns w' r) ∧
    1 ≤ calculateColumns w r ∧ calculateColumns w r ≤ 4 ∧
    (w ≤ 0 → calculateColumns w r = 1) ∧
    (w - 16 < 18 * r → calculateColumns w r = 1) := by
  have h18 : 0 < 18 * r := by linarith
  have hsmall : ∀ v : ℚ, v - 16 < 18 * r → calculateColumns v r = 1 := by
    intro v hv
    have hq : (v - 16) / (18 * r) < 1 := (div_lt_one h18).2 (by linarith)
    have hf : ⌊(v - 16) / (18 * r)⌋ < 1 := by
      rw [Int.floor_lt]
      exact_mod_cast hq
    have hmin : min 4 ⌊(v - 16) / (18 * r)⌋ ≤ 1 :=
      le_trans (min_le_right _ _) (by omega)
    unfold calculateColumns
    exact max_eq_left hmin
  refine ⟨?_, le_max_left 1 _, ?_, ?_, hsmall w⟩
  · intro hww
    unfold calculateColumns
    have hdiv : (w - 16) / (18 * r) ≤ (w' - 16) / (18 * r) :=
      (div_le_div_iff_of_pos_right h18).2 (by linarith)
    exact max_le_max (le_refl 1) (min_le_min (le_refl 4) (Int.floor_le_floor hdiv))
  · exact max_le (by norm_num) (min_le_left 4 _)
  · intro hw0
    exact hsmall w (by linarith)

/-- Witness for C9 at concrete widths 100 and 600 with rem size 16. -/
theorem calculateColumns_spec_witness :
    0 < (16 : ℚ) ∧
    (((100 : ℚ) ≤ 600 → calculateColumns 100 16 ≤ calculateColumns 600 16) ∧
     1 ≤ calculateColumns 100 16 ∧ calculateColumns 100 16 ≤ 4 ∧
     ((100 : ℚ) ≤ 0 → calculateColumns 100 16 = 1) ∧
     ((100 : ℚ) - 16 < 18 * 16 → calculateColumns 100 16 = 1)) :=
  ⟨by norm_num, calculateColumns_spec 100 600 16 (by norm_num)⟩

/-! ### The pagination controller (C3, C4, C6, C7) -/

/-- C3: when the in-flight flag is set, a further `loadPhotos` call is a
no-op. Starting from an idle state, a first call sets the flag and
dispatches exactly one fetch; any second call made while that fetch is
unresolved returns the state unchanged and dispatches no fetch. -/
theorem loadPhotos_inflight_noop (s : PaginationState)
    (f : Nat → Except String PexelsResponse) (r₁ r₂ : Bool)
    (h : s.loadingRef = false) :
    (loadPhotosStart r₁ s).1.loadingRef = true ∧
    (loadPhotosStart r₁ s).2 = some (if r₁ then 1 else s.page) ∧
    loadPhotos r₂ f (loadPhotosStart r₁ s).1 = ((loadPhotosStart r₁ s).1, none) := by
  simp [loadPhotosStart, loadPhotos, h]

/-- Witness for C3: from the initial state, the first call dispatches a
fetch, and a second call in flight is a no-op. -/
theorem loadPhotos_inflight_noop_witness :
    initialState.loadingRef = false ∧
    ((loadPhotosStart false initialState).1.loadingRef = true ∧
     (loadPhotosStart false initialState).2 =
       some (if false then 1 else initialState.page) ∧
     loadPhotos false (fun _ => Except.error ("network"))
       (loadPhotosStart false initialState).1 =
       ((loadPhotosStart false initialState).1, none)) :=
  ⟨rfl, loadPhotos_inflight_noop initialState (fun _ => Except.error ("network"))
    false false rfl⟩

/-- C4: when the fetch fails, `loadPhotos` clears the in-flight flag and
the loading flag, records an observable error, and leaves the photos, the
page cursor and `hasMore` unchanged; a fresh call afterwards requests the
same page again (the cursor has not advanced). -/
theorem loadPhotos_failure (s : PaginationState)
    (f : Nat → Except String PexelsResponse) (reset : Bool) (e : String)
    (h : s.loadingRef = false)
    (hf : f (if reset then 1 else s.page) = Except.error e) :
    ((loadPhotos reset f s).1).loadingRef = false ∧
    ((loadPhotos reset f s).1).isLoading = false ∧
    ((loadPhotos reset f s).1).error = some ("Error loading photos: " ++ e) ∧
    ((loadPhotos reset f s).1).photos = s.photos ∧
    ((loadPhotos reset f s).1).page = s.page ∧
    ((loadPhotos reset f s).1).hasMore = s.hasMore ∧
    (loadPhotosStart false ((loadPhotos reset f s).1)).2 = some s.page := by
  simp [loadPhotos, loadPhotosStart, loadPhotosFinish, h, hf]

/-- Witness for C4: a failing fetch from the initial state. -/
theorem loadPhotos_failure_witness :
    (initialState.loadingRef = false ∧
     (fun _ : Nat => Except.error (ε := String) (α := PexelsResponse) ("boom"))
       (if false then 1 else initialState.page) = Except.error ("boom")) ∧
    (((loadPhotos false (fun _ => Except.error ("boom")) initialState).1).loadingRef = false ∧
     ((loadPhotos false (fun _ => Except.error ("boom")) initialState).1).isLoading = false ∧
     ((loadPhotos false (fun _ => Except.error ("boom")) initialState).1).error =
       some ("Error loading photos: " ++ "boom") ∧
     ((loadPhotos false (fun _ => Except.error ("boom")) initialState).1).photos =
       initialState.photos ∧
     ((loadPhotos false (fun _ => Except.error ("boom")) initialState).1).page =
       initialState.page ∧
     ((loadPhotos false (fun _ => Except.error ("boom")) initialState).1).hasMore =
       initialState.hasMore ∧
     (loadPhotosStart false
       ((loadPhotos false (fun _ => Except.error ("boom")) initialState).1)).2 =
       some initialState.page) :=
  ⟨⟨rfl, rfl⟩, loadPhotos_failure initialState (fun _ => Except.error ("boom"))
    false ("boom") rfl rfl⟩

/-- C6: a successful `loadPhotos(reset = true)` call fetches page 1
regardless of the current cursor, replaces the accumulated collection
with exactly the returned page, and leaves the cursor at 2. -/
theorem loadPhotos_reset (s : PaginationState)
    (f : Nat → Except String PexelsResponse) (resp : PexelsResponse)
    (h : s.loadingRef = false) (hf : f 1 = Except.ok resp) :
    (loadPhotos true f s).2 = some 1 ∧
    ((loadPhotos true f s).1).photos = resp.photos ∧
    ((loadPhotos true f s).1).page = 2 ∧
    ((loadPhotos true f s).1).loadingRef = false ∧
    ((loadPhotos true f s).1).isLoading = false := by
  simp [loadPhotos, loadPhotosStart, loadPhotosFinish, h, hf]

/-- Witness for C6: a reset call from a state with an old cursor (page 5)
and a previously accumulated photo. -/
theorem loadPhotos_reset_witness :
    (staleState.loadingRef = false ∧
     (fun _ : Nat => Except.ok (ε := String) sampleResponse) 1 =
       Except.ok sampleResponse) ∧
    ((loadPhotos true (fun _ => Except.ok sampleResponse) staleState).2 = some 1 ∧
     ((loadPhotos true (fun _ => Except.ok sampleResponse) staleState).1).photos =
       sampleResponse.photos ∧
     ((loadPhotos true (fun _ => Except.ok sampleResponse) staleState).1).page = 2 ∧
     ((loadPhotos true (fun _ => Except.ok sampleResponse) staleState).1).loadingRef =
       false ∧
     ((loadPhotos true (fun _ => Except.ok sampleResponse) staleState).1).isLoading =
       false) :=
  ⟨⟨rfl, rfl⟩,
   loadPhotos_reset staleState (fun _ => Except.ok sampleResponse)
     sampleResponse rfl rfl⟩

/-- C7 counterexample: with `hasMore = false` and no load in flight, a
direct `loadNext()` call still dispatches a fetch (for the current
cursor, page 4) and appends photos — the controller itself never checks
`hasMore`, so the claim that every such call is a no-op dispatching no
fetch fails. -/
theorem loadPhotos_no_hasMore_guard_cex :
    (loadPhotos false
      (fun p => Except.ok (fetchPhotosFromList [mkPhoto 1 1 1] p 80))
      exhaustedState).2 = some 4 ∧
    (loadPhotos false
      (fun p => Except.ok (fetchPhotosFromList [mkPhoto 1 1 1] p 80))
      exhaustedState).1.photos ≠ [] := by
  with_unfolding_all decide

/-- C7, amended: once `hasMore` is false, no fetch is dispatched through
the scroll path — the grid renders no sentinel and the
`useInfiniteScroll` effect returns without registering an observer, so
`loadNext` is never invoked; the controller itself guards only on the
in-flight flag. -/
theorem hasMore_false_disables_trigger :
    (∀ hasCallback : Bool, useInfiniteScrollActive hasCallback false = false) ∧
    sentinelRendered false = false :=
  ⟨fun hasCallback => by simp [useInfiniteScrollActive], rfl⟩

/-! ### Identifier uniqueness across list-backed loads (C5) -/

/-- C5 counterexample: with a stored list of a single photo (id 1), one
successful `loadNext()` already wraps (`page * perPage` exceeds the list
length), so the accumulated collection contains id 1 twice — the
identifiers are not pairwise distinct. -/
theorem loadNext_duplicate_ids_cex :
    ¬ (((iterLoadNext [mkPhoto 1 1 1] 1).photos.map PexelsPhoto.id).Nodup) := by
  with_unfolding_all decide

theorem fetchFromList_page_noWrap (S : List PexelsPhoto) (i perPage : Nat)
    (h : (i + 1) * perPage ≤ S.length) :
    (fetchPhotosFromList S (i + 1) perPage).photos =
      (S.drop (i * perPage)).take perPage := by
  rcases Nat.eq_zero_or_pos perPage with hp | hp
  · subst hp
    simp [fetchPhotosFromList]
  · rw [Nat.succ_mul] at h
    have hi : i * perPage < S.length := by omega
    have hstart : ((i + 1 - 1) * perPage) % S.length = i * perPage := by
      simp only [Nat.add_sub_cancel]
      exact Nat.mod_eq_of_lt hi
    have hend : min (i * perPage + perPage) S.length = i * perPage + perPage :=
      min_eq_left h
    have hdiff : i * perPage + perPage - i * perPage = perPage := by omega
    simp only [fetchPhotosFromList, hstart, hend, hdiff, Nat.lt_irrefl, if_false]

theorem iterLoadNext_state (S : List PexelsPhoto) :
    ∀ (k : Nat), k * 80 ≤ S.length →
      (iterLoadNext S k).photos = S.take (k * 80) ∧
      (iterLoadNext S k).page = k + 1 ∧
      (iterLoadNext S k).loadingRef = false
  | 0, _ => ⟨rfl, rfl, rfl⟩
  | k + 1, h => by
    have hk : k * 80 ≤ S.length := by
      rw [Nat.succ_mul] at h
      omega
    have ih := iterLoadNext_state S k hk
    have hpage : (fetchPhotosFromList S (k + 1) 80).photos =
        (S.drop (k * 80)).take 80 :=
      fetchFromList_page_noWrap S k 80 h
    simp only [iterLoadNext, loadNextFromList, loadPhotos, loadPhotosStart,
      ih.2.2, Bool.false_eq_true, if_false, loadPhotosFinish, ih.2.1, ih.1,
      hpage]
    refine ⟨?_, trivial, trivial⟩
    rw [← List.take_add]
    rw [Nat.succ_mul]

/-- C5, amended: the identifiers in the accumulated collection stay
pairwise distinct over successful list-backed `loadNext()` calls as long
as the stored list itself has distinct identifiers and no consumed page
wraps past the end of the list (`k` pages of 80 fit in the list); once a
page wraps, `fetchPhotosFromList` re-serves photos from the start of the
list and duplicates appear. -/
theorem loadNext_ids_nodup (S : List PexelsPhoto) (k : Nat)
    (hS : (S.map PexelsPhoto.id).Nodup) (hk : k * 80 ≤ S.length) :
    (((iterLoadNext S k).photos).map PexelsPhoto.id).Nodup := by
  rw [(iterLoadNext_state S k hk).1]
  have hsub : ((S.take (k * 80)).map PexelsPhoto.id).Sublist
      (S.map PexelsPhoto.id) :=
    (List.take_sublist (k * 80) S).map PexelsPhoto.id
  exact hS.sublist hsub

/-- Witness for the amended C5: one full page loaded from a stored list
of 80 photos with distinct ids. -/
theorem loadNext_ids_nodup_witness :
    ((((List.range 80).map (fun i => mkPhoto (Int.ofNat i) 1 1)).map
        PexelsPhoto.id).Nodup ∧
     1 * 80 ≤ ((List.range 80).map (fun i => mkPhoto (Int.ofNat i) 1 1)).length) ∧
    (((iterLoadNext ((List.range 80).map (fun i => mkPhoto (Int.ofNat i) 1 1))
        1).photos).map PexelsPhoto.id).Nodup :=
  ⟨⟨by with_unfolding_all decide, by with_unfolding_all decide⟩,
   loadNext_ids_nodup ((List.range 80).map (fun i => mkPhoto (Int.ofNat i) 1 1))
     1 (by with_unfolding_all decide) (by with_unfolding_all decide)⟩
